import Mathlib

/-!
Shallow embedding of the WellRead bot content-curation pipeline
(`src/rss-parser.js` with its curator part, `src/index.js`, the summarizer
and the chat poster), together with theorems settling the specification
claims about it.

Strings are modelled as lists of characters; the JavaScript `toLowerCase`
is modelled on its ASCII fragment (`Char.toLower` lowers exactly `A`-`Z`,
which is also what the source data exercises), `String.prototype.includes`
as contiguous-sublist containment, and `split` on the whitespace regex as
splitting at maximal runs of ASCII whitespace.  A date-valued field is
modelled by the result of parsing it: `none` is a missing or empty field,
`some none` a string whose parse is an invalid date (`NaN`), and
`some (some t)` a string parsing to epoch-millisecond timestamp `t`.
External effects (network, the language-model call, the chat API) enter as
explicit function arguments describing their outcomes.
-/

namespace WellRead

abbrev Str := List Char

/-- JS `toLowerCase`, ASCII fragment: `Char.toLower` lowers exactly `A`-`Z`. -/
def lowerStr (s : Str) : Str := s.map Char.toLower

/-- ASCII whitespace, as matched by the regex whitespace class. -/
def isWs (c : Char) : Bool :=
  c == ' ' || c == '\t' || c == '\n' || c == '\r' || c == '\x0b' || c == '\x0c'

/-- Helper for `wsSplit`: `inRun` records whether the previously seen
character was whitespace, `cur` holds the current token reversed. -/
def wsSplitAux (inRun : Bool) (cur : Str) : Str → List Str
  | [] => [cur.reverse]
  | c :: rest =>
    if isWs c then
      if inRun then wsSplitAux true cur rest
      else cur.reverse :: wsSplitAux true [] rest
    else wsSplitAux false (c :: cur) rest

/-- JS `topic.split` on the whitespace-run regex: tokens between maximal
whitespace runs; a leading or trailing run contributes an empty token,
exactly as in JavaScript. -/
def wsSplit (s : Str) : List Str := wsSplitAux false [] s

/-- JS `s.includes(sub)`: `sub` occurs contiguously inside `s`. -/
def includes (s sub : Str) : Bool := decide (sub <:+: s)

/-- One normalized feed item as built by `fetchFeed` in `src/rss-parser.js`.
Optional string fields are `none` when the underlying JS value is absent or
empty (falsy); `pubDate` is modelled by its parse result as described in the
module docstring. -/
structure FeedItem where
  title : Option Str
  link : Option Str
  pubDate : Option (Option Int)
  creator : Option Str
  description : Option Str
  content : Option Str
  feedSource : Option Str
deriving DecidableEq

/-- JS `x || two-quote-empty-string` on an optional string field. -/
def strOrEmpty (o : Option Str) : Str := o.getD []

/-- The lowercased search text of `calculateRelevanceScore`: the template
literal concatenating title, description and content with single spaces. -/
def searchText (item : FeedItem) : Str :=
  lowerStr (strOrEmpty item.title ++ [' '] ++ strOrEmpty item.description
    ++ [' '] ++ strOrEmpty item.content)

/-- `calculateRelevanceScore` from the curator: for each topic, add 10 when
the topic occurs in the search text, then add 2 for each topic word of
length greater than 3 that occurs in the search text.  The topic string is
used verbatim: the function itself does not lowercase it (`loadTopics`
lowercases topics before they reach this point in the pipeline). -/
def calculateRelevanceScore (item : FeedItem) (topics : List Str) : Int :=
  topics.foldl (fun score topic =>
    let score1 := if includes (searchText item) topic then score + 10 else score
    (wsSplit topic).foldl (fun sc word =>
      if decide (3 < word.length) && includes (searchText item) word
      then sc + 2 else sc) score1) 0

/-- The scoring formula exactly as claim C1 words it: the topic phrase and
its words are lowercased before the substring checks.  Kept separate from
the code-derived `calculateRelevanceScore` so the two can be compared. -/
def claimKeywordScore (item : FeedItem) (topics : List Str) : Int :=
  (topics.map (fun topic =>
    (if includes (searchText item) (lowerStr topic) then (10 : Int) else 0)
      + 2 * ((wsSplit (lowerStr topic)).filter (fun w =>
          decide (3 < w.length) && includes (searchText item) w)).length)).sum

/-- Per-topic contribution of the keyword score, with the topic used
verbatim as the code does. -/
def topicContribution (text topic : Str) : Int :=
  (if includes text topic then (10 : Int) else 0)
    + 2 * ((wsSplit topic).filter (fun w =>
        decide (3 < w.length) && includes text w)).length

/-- Sum-of-per-topic-contributions form of the keyword score. -/
def keywordScoreSum (item : FeedItem) (topics : List Str) : Int :=
  (topics.map (topicContribution (searchText item))).sum

/-- A curated item: the record spread of a `FeedItem` with the added
`relevanceScore` field. -/
structure ScoredItem where
  title : Option Str
  link : Option Str
  pubDate : Option (Option Int)
  creator : Option Str
  description : Option Str
  content : Option Str
  feedSource : Option Str
  relevanceScore : Int
deriving DecidableEq

/-- The per-item record built by `curateItems`: all fields of the input item
plus its relevance score. -/
def scoreItem (topics : List Str) (item : FeedItem) : ScoredItem :=
  { title := item.title, link := item.link, pubDate := item.pubDate,
    creator := item.creator, description := item.description,
    content := item.content, feedSource := item.feedSource,
    relevanceScore := calculateRelevanceScore item topics }

/-- The `minScore` filter of `curateItems`. -/
def scoreAtLeast (minScore : Int) (s : ScoredItem) : Bool :=
  decide (minScore ≤ s.relevanceScore)

/-- The JS sort comparator of `curateItems` (descending score): `a` may come
before `b` exactly when the comparator value is not positive. -/
def curateLe (a b : ScoredItem) : Bool :=
  decide (b.relevanceScore ≤ a.relevanceScore)

/-- `curateItems` from the curator: score every item, keep those reaching
`minScore`, then sort by descending score.  The ECMAScript array sort is
required to be stable, modelled by the stable `List.mergeSort`. -/
def curateItems (items : List FeedItem) (topics : List Str) (minScore : Int) :
    List ScoredItem :=
  ((items.map (scoreItem topics)).filter (scoreAtLeast minScore)).mergeSort curateLe

/-- The per-item predicate of `filterByTimeframe`: a falsy `pubDate` is
rejected, an invalid date compares false against the cutoff, and otherwise
the item is kept exactly when its timestamp is strictly after the cutoff. -/
def keepRecent (now hoursAgo : Int) (item : FeedItem) : Bool :=
  match item.pubDate with
  | none => false
  | some none => false
  | some (some t) => decide (now - hoursAgo * 60 * 60 * 1000 < t)

/-- `filterByTimeframe` from `src/rss-parser.js`, with the clock reading
passed explicitly. -/
def filterByTimeframe (now : Int) (items : List FeedItem) (hoursAgo : Int) :
    List FeedItem :=
  items.filter (keepRecent now hoursAgo)

/-- Steps 3-4 of `main` in `src/index.js`: the time-filtered items go
straight into `curateItems` with the default `minScore = 1`; the pipeline
has no deduplication stage and no posted-article cache. -/
def mainCuratedItems (recentItems : List FeedItem) (topics : List Str) :
    List ScoredItem :=
  curateItems recentItems topics 1

/-- A raw item as delivered by the feed-parsing library. -/
structure RawItem where
  title : Option Str
  link : Option Str
  pubDate : Option (Option Int)
  creator : Option Str
  author : Option Str
  contentSnippet : Option Str
  description : Option Str
  contentEncoded : Option Str
  content : Option Str
deriving DecidableEq

/-- A raw feed as delivered by the feed-parsing library. -/
structure RawFeed where
  title : Option Str
  items : List RawItem
deriving DecidableEq

/-- JS `a || b` on optional strings: an absent or empty `a` falls through. -/
def jsOr (a b : Option Str) : Option Str :=
  match a with
  | some s => if s.isEmpty then b else some s
  | none => b

/-- The normalization applied per item inside `fetchFeed`. -/
def normalizeItem (feedTitle : Option Str) (r : RawItem) : FeedItem :=
  { title := r.title, link := r.link, pubDate := r.pubDate,
    creator := jsOr r.creator r.author,
    description := jsOr r.contentSnippet r.description,
    content := jsOr r.contentEncoded r.content,
    feedSource := feedTitle }

/-- Outcome of `fetchFeed`: the success record with its normalized items, or
the caught-error record. -/
inductive FetchResult where
  | ok (feedTitle : Option Str) (items : List FeedItem)
  | err (message : Str)
deriving DecidableEq

/-- The `success` flag of a `fetchFeed` result. -/
def FetchResult.success : FetchResult → Bool
  | .ok _ _ => true
  | .err _ => false

/-- The `items` of a `fetchFeed` result (only ever read on successes, which
the filter in `fetchAllFeeds` guarantees). -/
def FetchResult.items : FetchResult → List FeedItem
  | .ok _ its => its
  | .err _ => []

/-- `fetchFeed`: `net` models the network and feed parser, with `none` a
fetch or parse failure, which the catch branch turns into an error record. -/
def fetchFeed (net : Str → Option RawFeed) (url : Str) : FetchResult :=
  match net url with
  | some feed => .ok feed.title (feed.items.map (normalizeItem feed.title))
  | none => .err url

/-- `fetchAllFeeds`: fetch every url, keep the successes, concatenate their
items in url order. -/
def fetchAllFeeds (net : Str → Option RawFeed) (feedUrls : List Str) :
    List FeedItem :=
  ((feedUrls.map (fetchFeed net)).filter FetchResult.success).flatMap
    FetchResult.items

/-- A summarized item: a curated item with the generated summary attached. -/
structure SummarizedItem where
  title : Option Str
  link : Option Str
  pubDate : Option (Option Int)
  creator : Option Str
  description : Option Str
  content : Option Str
  feedSource : Option Str
  relevanceScore : Int
  summary : Str
deriving DecidableEq

/-- The record spread performed per item inside `summarizeBatch`. -/
def addSummary (summarize : ScoredItem → Str) (i : ScoredItem) : SummarizedItem :=
  { title := i.title, link := i.link, pubDate := i.pubDate,
    creator := i.creator, description := i.description, content := i.content,
    feedSource := i.feedSource, relevanceScore := i.relevanceScore,
    summary := summarize i }

/-- `summarizeBatch` with its default batch size of three: items are
summarized in batches of three and pushed in order.  `summarize` models the
per-item language-model call (which on failure already yields a placeholder
string, so it is total). -/
def summarizeBatch (summarize : ScoredItem → Str) :
    List ScoredItem → List SummarizedItem
  | [] => []
  | [a] => [addSummary summarize a]
  | [a, b] => [addSummary summarize a, addSummary summarize b]
  | a :: b :: c :: rest =>
      addSummary summarize a :: addSummary summarize b ::
        addSummary summarize c :: summarizeBatch summarize rest

/-- The items whose titles `generateDigest` lists in its prompt: the slice
of the first twenty items. -/
def generateDigestListedItems (items : List SummarizedItem) :
    List SummarizedItem :=
  items.take 20

/-- The posting loop `postAllPapers`: `ok p` models whether the chat API
calls for paper `p` succeed.  `postPaperWithSummary` logs a failure and
rethrows, and the loop has no handler, so it stops at the first failure.
Returns the papers actually posted and whether the loop completed. -/
def postAllPapers (ok : SummarizedItem → Bool) :
    List SummarizedItem → List SummarizedItem × Bool
  | [] => ([], true)
  | p :: ps =>
    if ok p then
      let rest := postAllPapers ok ps
      (p :: rest.1, rest.2)
    else ([], false)

/-- `postCompleteDigest`: `digestOk` models whether the digest post itself
succeeds; its failure rethrows before any paper is posted, and a paper
failure propagates out of the loop. -/
def postCompleteDigest (digestOk : Bool) (ok : SummarizedItem → Bool)
    (papers : List SummarizedItem) : List SummarizedItem × Bool :=
  if digestOk then postAllPapers ok papers else ([], false)

/-- An item with extra text appended to its body text (content field). -/
def appendToContent (item : FeedItem) (ext : Str) : FeedItem :=
  { item with content := some (strOrEmpty item.content ++ ext) }

/-- An item with extra text appended to its title. -/
def appendToTitle (item : FeedItem) (ext : Str) : FeedItem :=
  { item with title := some (strOrEmpty item.title ++ ext) }

/-- Concrete item whose title and description together contain the phrase
of `topicsDL` across the field boundary. -/
def itemDL : FeedItem :=
  ⟨some ("deep".toList), none, none, none, some ("learning".toList), none, none⟩

/-- Concrete one-topic list with a two-word topic. -/
def topicsDL : List Str := [("deep learning".toList)]

/-- Concrete item whose search text contains the lowercase string ai. -/
def itemAI : FeedItem :=
  ⟨some ("ai research".toList), none, none, none, none, none, none⟩

/-- Concrete one-topic list whose topic has uppercase letters. -/
def topicsAI : List Str := [("AI".toList)]

/-- Concrete matching item with link x. -/
def itemR1 : FeedItem :=
  ⟨some ("rust alpha".toList), some ("x".toList), none, none, none, none, none⟩

/-- A second concrete matching item with the same link x. -/
def itemR2 : FeedItem :=
  ⟨some ("rust beta".toList), some ("x".toList), none, none, none, none, none⟩

/-- Concrete one-topic list matching `itemR1` and `itemR2`. -/
def topicsRust : List Str := [("rust".toList)]

/-- Twenty-one qualifying candidate items. -/
def items21 : List FeedItem := List.replicate 21 itemR1

/-- Concrete summarized paper whose posting will fail. -/
def paperBad : SummarizedItem :=
  ⟨some ("p1".toList), none, none, none, none, none, none, 12, ("bad".toList)⟩

/-- Concrete summarized paper whose posting would succeed. -/
def paperGood : SummarizedItem :=
  ⟨some ("p2".toList), none, none, none, none, none, none, 12, ("ok".toList)⟩

/-- Concrete chat-API outcome model: exactly `paperGood` posts cleanly. -/
def postOkFn (p : SummarizedItem) : Bool := p.summary == ("ok".toList)

/-- Concrete item published one second inside the 24-hour window before
clock reading 0. -/
def itemRecent : FeedItem :=
  ⟨none, none, some (some (-86399000)), none, none, none, none⟩

/-- Concrete item published one second outside the 24-hour window before
clock reading 0. -/
def itemOld : FeedItem :=
  ⟨none, none, some (some (-86401000)), none, none, none, none⟩


/-! ## Helper lemmas -/

/-- The word loop of `calculateRelevanceScore` adds twice the number of
qualifying words to its accumulator. -/
lemma wordFold_eq (text : Str) (ws : List Str) (acc : Int) :
    ws.foldl (fun sc word =>
      if decide (3 < word.length) && includes text word then sc + 2 else sc) acc
      = acc + 2 * ((ws.filter (fun w =>
          decide (3 < w.length) && includes text w)).length : Int) := by
  induction ws generalizing acc with
  | nil => simp
  | cons w ws ih =>
    simp only [List.foldl_cons, List.filter_cons]
    by_cases h : (decide (3 < w.length) && includes text w) = true
    · simp only [h, if_true, ih, List.length_cons]
      push_cast
      ring
    · rw [Bool.not_eq_true] at h
      simp only [h, Bool.false_eq_true, if_false]
      exact ih acc

/-- The topic loop of `calculateRelevanceScore` computes the sum of the
per-topic contributions. -/
lemma calcScore_eq_sum (item : FeedItem) (topics : List Str) :
    calculateRelevanceScore item topics = keywordScoreSum item topics := by
  suffices h : ∀ (ts : List Str) (acc : Int),
      ts.foldl (fun score topic =>
        let score1 := if includes (searchText item) topic then score + 10 else score
        (wsSplit topic).foldl (fun sc word =>
          if decide (3 < word.length) && includes (searchText item) word
          then sc + 2 else sc) score1) acc
      = acc + (ts.map (topicContribution (searchText item))).sum by
    simpa [calculateRelevanceScore, keywordScoreSum] using h topics 0
  intro ts
  induction ts with
  | nil => simp
  | cons t ts ih =>
    intro acc
    simp only [List.foldl_cons, List.map_cons, List.sum_cons]
    rw [wordFold_eq, ih]
    unfold topicContribution
    by_cases hp : includes (searchText item) t = true
    · simp only [hp, if_true]
      ring
    · rw [Bool.not_eq_true] at hp
      simp only [hp, Bool.false_eq_true, if_false]
      ring

/-- Each per-topic contribution is non-negative. -/
lemma topicContribution_nonneg (text t : Str) : 0 ≤ topicContribution text t := by
  unfold topicContribution
  have h1 : 0 ≤ (if includes text t then (10 : Int) else 0) := by split <;> norm_num
  have h2 : (0 : Int) ≤ 2 * ((((wsSplit t).filter (fun w =>
      decide (3 < w.length) && includes text w)).length : Int)) := by positivity
  exact add_nonneg h1 h2

/-- Each per-topic contribution is even. -/
lemma topicContribution_even (text t : Str) : 2 ∣ topicContribution text t := by
  unfold topicContribution
  apply dvd_add
  · split <;> norm_num
  · exact dvd_mul_right 2 _

/-- The sort comparator of `curateItems` is transitive. -/
lemma curateLe_trans : ∀ (a b c : ScoredItem), curateLe a b → curateLe b c → curateLe a c := by
  intro a b c hab hbc
  simp only [curateLe, decide_eq_true_eq] at *
  omega

/-- The sort comparator of `curateItems` is total. -/
lemma curateLe_total : ∀ (a b : ScoredItem), curateLe a b || curateLe b a := by
  intro a b
  simp only [curateLe, Bool.or_eq_true, decide_eq_true_eq]
  omega

/-- Stability of the curation sort: restricting the sorted list to the items
of one fixed score gives exactly the corresponding restriction of the input,
in the input order. -/
lemma stable_class (l : List ScoredItem) (v : Int) :
    (l.mergeSort curateLe).filter (fun s => s.relevanceScore == v)
      = l.filter (fun s => s.relevanceScore == v) := by
  set p : ScoredItem → Bool := fun s => s.relevanceScore == v with hp
  have hpair : (l.filter p).Pairwise fun a b => curateLe a b = true := by
    apply List.pairwise_of_forall_mem_list
    intro a ha b hb
    have ha2 := (List.mem_filter.mp ha).2
    have hb2 := (List.mem_filter.mp hb).2
    simp only [hp, beq_iff_eq] at ha2 hb2
    simp [curateLe, ha2, hb2]
  have hsub : List.Sublist (l.filter p) (l.mergeSort curateLe) :=
    List.sublist_mergeSort curateLe_trans curateLe_total hpair (List.filter_sublist l)
  have h3 : (l.filter p).filter p = l.filter p := by
    simp [List.filter_filter]
  have hsub2 : List.Sublist (l.filter p) ((l.mergeSort curateLe).filter p) := by
    have h2 := hsub.filter p
    rwa [h3] at h2
  have hlen : ((l.mergeSort curateLe).filter p).length = (l.filter p).length :=
    ((List.mergeSort_perm l curateLe).filter p).length_eq
  exact (hsub2.eq_of_length hlen.symm).symm

/-- Growing the search text on the right can only preserve inclusions. -/
lemma includes_append (s t sub : Str) (h : includes s sub = true) :
    includes (s ++ t) sub = true := by
  simp only [includes, decide_eq_true_eq] at h ⊢
  obtain ⟨u, v, huv⟩ := h
  exact ⟨u, v ++ t, by rw [← huv]; simp [List.append_assoc]⟩

/-- Appending to the content field extends the search text on the right. -/
lemma searchText_appendToContent (item : FeedItem) (ext : Str) :
    searchText (appendToContent item ext) = searchText item ++ lowerStr ext := by
  simp [searchText, appendToContent, strOrEmpty, lowerStr, List.map_append,
    List.append_assoc]

/-- Per-topic contributions are monotone under extending the search text on
the right. -/
lemma topicContribution_mono (s t topic : Str) :
    topicContribution s topic ≤ topicContribution (s ++ t) topic := by
  unfold topicContribution
  have h1 : (if includes s topic then (10 : Int) else 0)
      ≤ (if includes (s ++ t) topic then (10 : Int) else 0) := by
    by_cases h : includes s topic = true
    · rw [if_pos h, if_pos (includes_append s t topic h)]
    · rw [if_neg h]
      split <;> norm_num
  have h2 : ((wsSplit topic).filter (fun w =>
        decide (3 < w.length) && includes s w)).length
      ≤ ((wsSplit topic).filter (fun w =>
        decide (3 < w.length) && includes (s ++ t) w)).length := by
    rw [← List.countP_eq_length_filter, ← List.countP_eq_length_filter]
    apply List.countP_mono_left
    intro w _ hw
    rw [Bool.and_eq_true] at hw ⊢
    exact ⟨hw.1, includes_append s t w hw.2⟩
  have hc := Int.ofNat_le.mpr h2
  omega

/-- The posting loop posts exactly the longest prefix of papers whose chat
calls succeed, and completes exactly when they all succeed. -/
lemma postAllPapers_eq (ok : SummarizedItem → Bool) :
    ∀ papers, postAllPapers ok papers = (papers.takeWhile ok, papers.all ok) := by
  intro papers
  induction papers with
  | nil => rfl
  | cons p ps ih =>
    by_cases h : ok p = true
    · simp [postAllPapers, h, List.takeWhile_cons, ih]
    · rw [Bool.not_eq_true] at h
      simp [postAllPapers, h, List.takeWhile_cons]

/-- The batched summarization loop summarizes every item once, in order. -/
lemma summarizeBatch_eq_map (f : ScoredItem → Str) :
    ∀ items, summarizeBatch f items = items.map (addSummary f)
  | [] => rfl
  | [_] => rfl
  | [_, _] => rfl
  | a :: b :: c :: rest => by
      simp [summarizeBatch, summarizeBatch_eq_map f rest]

/-! ## Claim theorems -/

/-- C1 (counterexample): with the uppercase topic AI and an item whose
search text contains the lowercase string ai, the code scores 0 while the
formula of the claim (which lowercases the topic before matching) demands
10, so the claim as stated is false. -/
theorem claim1_counterexample :
    calculateRelevanceScore itemAI topicsAI = 0
      ∧ claimKeywordScore itemAI topicsAI = 10
      ∧ calculateRelevanceScore itemAI topicsAI ≠ claimKeywordScore itemAI topicsAI := by
  decide

/-- C1 (amended): the keyword relevance score equals the sum over topics of
+10 when the topic phrase, used verbatim (not lowercased), occurs in the
lowercased search text, plus +2 for each whitespace-separated topic word of
length greater than 3 that occurs there, word contributions being additive
even when the full phrase matched. -/
theorem claim1_keyword_score_formula :
    ∀ (item : FeedItem) (topics : List Str),
      calculateRelevanceScore item topics = keywordScoreSum item topics :=
  fun item topics => calcScore_eq_sum item topics

/-- C2: `curateItems` keeps exactly the scored items reaching `minScore`
(the output is a permutation of the filtered scored input), sorted by
non-increasing relevance score, and stably so: the items of any fixed score
appear in their original input order. -/
theorem claim2_curateItems_filter_sort_stable :
    ∀ (items : List FeedItem) (topics : List Str) (minScore : Int),
      (curateItems items topics minScore).Perm
          ((items.map (scoreItem topics)).filter (scoreAtLeast minScore))
        ∧ (curateItems items topics minScore).Pairwise
            (fun a b => b.relevanceScore ≤ a.relevanceScore)
        ∧ ∀ v : Int,
            (curateItems items topics minScore).filter (fun s => s.relevanceScore == v)
              = ((items.map (scoreItem topics)).filter (scoreAtLeast minScore)).filter
                  (fun s => s.relevanceScore == v) := by
  intro items topics m
  refine ⟨List.mergeSort_perm _ curateLe, ?_, ?_⟩
  · have hs := @List.sorted_mergeSort ScoredItem curateLe curateLe_trans curateLe_total
      ((items.map (scoreItem topics)).filter (scoreAtLeast m))
    exact hs.imp (fun h => by simpa [curateLe, decide_eq_true_eq] using h)
  · intro v
    exact stable_class _ v

/-- C3 (counterexample): with twenty-one candidates all scoring above the
threshold, all twenty-one survive curation and all twenty-one are posted
when the chat calls succeed, not exactly twenty as claimed. -/
theorem claim3_counterexample :
    (mainCuratedItems items21 topicsRust).length = 21
      ∧ ((postCompleteDigest true (fun _ => true)
          (summarizeBatch (fun _ => []) (mainCuratedItems items21 topicsRust))).1).length
        = 21 := by
  have h : mainCuratedItems items21 topicsRust
      = (items21.map (scoreItem topicsRust)).filter (scoreAtLeast 1) :=
    List.mergeSort_of_sorted (by decide)
  rw [h]
  constructor <;> decide

/-- C3 (amended): curation and posting never truncate: every candidate
reaching the threshold is summarized and, when the chat calls succeed,
posted; only the list of titles inside the digest prompt is truncated, to
the first twenty items of the already-sorted curated sequence (so the
truncation that does exist happens after sorting). -/
theorem claim3_truncation_only_in_digest_list :
    ∀ (items : List FeedItem) (topics : List Str) (f : ScoredItem → Str),
      (summarizeBatch f (curateItems items topics 1)).length
          = (curateItems items topics 1).length
        ∧ postCompleteDigest true (fun _ => true)
              (summarizeBatch f (curateItems items topics 1))
            = (summarizeBatch f (curateItems items topics 1), true)
        ∧ generateDigestListedItems (summarizeBatch f (curateItems items topics 1))
            = (summarizeBatch f (curateItems items topics 1)).take 20 := by
  intro items topics f
  refine ⟨?_, ?_, rfl⟩
  · rw [summarizeBatch_eq_map]
    exact List.length_map _ _
  · simp [postCompleteDigest, postAllPapers_eq, List.all_eq_true]

/-- C4 (counterexample): two time-filtered items sharing one link both reach
the curated output, so the pipeline does not deduplicate by link. -/
theorem claim4_counterexample :
    ((mainCuratedItems [itemR1, itemR2] topicsRust).filter
        (fun s => s.link == some ("x".toList))).length = 2 := by
  have h : mainCuratedItems [itemR1, itemR2] topicsRust
      = ([itemR1, itemR2].map (scoreItem topicsRust)).filter (scoreAtLeast 1) :=
    List.mergeSort_of_sorted (by decide)
  rw [h]
  decide

/-- C4 (amended): between the time filter and ranking the pipeline performs
no deduplication and consults no posted-article cache: for every link, the
curated output contains exactly as many items with that link as there are
qualifying (score at least the default 1) items with that link in the
time-filtered input. -/
theorem claim4_no_dedup :
    ∀ (recentItems : List FeedItem) (topics : List Str) (l : Option Str),
      (mainCuratedItems recentItems topics).countP (fun s => s.link == l)
        = (recentItems.map (scoreItem topics)).countP
            (fun s => s.link == l && scoreAtLeast 1 s) := by
  intro recent topics l
  unfold mainCuratedItems curateItems
  rw [(List.mergeSort_perm _ curateLe).countP_eq]
  rw [List.countP_filter]

/-- C5: `filterByTimeframe` keeps exactly the items whose timestamp is
strictly after now minus the window: an item exactly at the boundary or one
second before it is dropped, one second after it is kept, and a missing or
unparseable date is always dropped. -/
theorem claim5_filterByTimeframe_window :
    ∀ (now hoursAgo : Int) (items : List FeedItem) (item : FeedItem),
      filterByTimeframe now items hoursAgo = items.filter (keepRecent now hoursAgo)
        ∧ (keepRecent now hoursAgo item = true
            ↔ ∃ t, item.pubDate = some (some t) ∧ now - hoursAgo * 60 * 60 * 1000 < t)
        ∧ (item.pubDate = some (some (now - hoursAgo * 60 * 60 * 1000)) →
            keepRecent now hoursAgo item = false)
        ∧ (item.pubDate = some (some (now - hoursAgo * 60 * 60 * 1000 - 1000)) →
            keepRecent now hoursAgo item = false)
        ∧ (item.pubDate = some (some (now - hoursAgo * 60 * 60 * 1000 + 1000)) →
            keepRecent now hoursAgo item = true)
        ∧ (item.pubDate = none → keepRecent now hoursAgo item = false)
        ∧ (item.pubDate = some none → keepRecent now hoursAgo item = false) := by
  intro now hrs items item
  refine ⟨rfl, ?_, ?_, ?_, ?_, ?_, ?_⟩
  · rcases hpd : item.pubDate with _ | (_ | t)
    · simp [keepRecent, hpd]
    · simp [keepRecent, hpd]
    · simp [keepRecent, hpd]
  · intro h
    simp only [keepRecent, h, decide_eq_false_iff_not]
    omega
  · intro h
    simp only [keepRecent, h, decide_eq_false_iff_not]
    omega
  · intro h
    simp only [keepRecent, h, decide_eq_true_eq]
    omega
  · intro h
    simp [keepRecent, h]
  · intro h
    simp [keepRecent, h]

/-- C5 (witness): at clock reading 0 with a 24-hour window, the item one
second inside the window is kept and the one a second outside is dropped. -/
theorem claim5_witness :
    keepRecent 0 24 itemRecent = true ∧ keepRecent 0 24 itemOld = false :=
  ⟨(claim5_filterByTimeframe_window 0 24 [] itemRecent).2.2.2.2.1 (by decide),
   (claim5_filterByTimeframe_window 0 24 [] itemOld).2.2.2.1 (by decide)⟩

/-- C6 (counterexample): appending a character to the title of an item whose
phrase match straddles the title-description boundary lowers its score from
14 to 4, so the score is not monotone under appending to the title. -/
theorem claim6_counterexample :
    calculateRelevanceScore (appendToTitle itemDL ("x".toList)) topicsDL
      < calculateRelevanceScore itemDL topicsDL := by
  decide

/-- C6 (amended): the keyword score is monotone under appending content to
the body text (the final component of the search text): such an extension
never lowers the score. -/
theorem claim6_monotone_in_body_text :
    ∀ (item : FeedItem) (topics : List Str) (ext : Str),
      calculateRelevanceScore item topics
        ≤ calculateRelevanceScore (appendToContent item ext) topics := by
  intro item topics ext
  rw [calcScore_eq_sum, calcScore_eq_sum]
  unfold keywordScoreSum
  rw [searchText_appendToContent]
  apply List.sum_le_sum
  intro topic _
  exact topicContribution_mono _ _ topic

/-- C7 (counterexample): when posting the first paper fails, the succeeding
sibling paper is never attempted and the run fails, contradicting the
claimed skip-and-continue behavior. -/
theorem claim7_counterexample :
    postOkFn paperGood = true
      ∧ postCompleteDigest true postOkFn [paperBad, paperGood] = ([], false) := by
  decide

/-- C7 (amended): a digest-post failure is fatal and nothing is posted; an
individual item failure is logged and rethrown, so the papers actually
posted are exactly the longest successful prefix and the run fails unless
every chat call succeeds. -/
theorem claim7_post_failure_behavior :
    ∀ (digestOk : Bool) (ok : SummarizedItem → Bool)
      (papers : List SummarizedItem),
      postCompleteDigest digestOk ok papers
        = (if digestOk then papers.takeWhile ok else [], digestOk && papers.all ok) := by
  intro d ok papers
  cases d <;> simp [postCompleteDigest, postAllPapers_eq]

/-- C8: `fetchAllFeeds` returns exactly the concatenation, in feed order, of
the normalized items of the feeds that fetched successfully; a failed feed
contributes nothing and the aggregation itself always completes. -/
theorem claim8_fetchAllFeeds_tolerates_failures :
    ∀ (net : Str → Option RawFeed) (feedUrls : List Str),
      fetchAllFeeds net feedUrls
        = feedUrls.flatMap (fun url =>
            match net url with
            | some feed => feed.items.map (normalizeItem feed.title)
            | none => []) := by
  intro net urls
  induction urls with
  | nil => rfl
  | cons u us ih =>
    unfold fetchAllFeeds at ih ⊢
    simp only [List.map_cons, List.flatMap_cons]
    cases h : net u with
    | some feed =>
      simp [fetchFeed, h, FetchResult.success, FetchResult.items, List.filter_cons, ih]
    | none =>
      simp [fetchFeed, h, FetchResult.success, List.filter_cons, ih]

/-- C9: the keyword relevance score is always a non-negative even integer,
so reaching the default minimum score of 1 is equivalent to reaching 2. -/
theorem claim9_score_nonneg_even :
    ∀ (item : FeedItem) (topics : List Str),
      0 ≤ calculateRelevanceScore item topics
        ∧ 2 ∣ calculateRelevanceScore item topics
        ∧ (1 ≤ calculateRelevanceScore item topics
            ↔ 2 ≤ calculateRelevanceScore item topics) := by
  intro item topics
  rw [calcScore_eq_sum]
  have h0 : 0 ≤ keywordScoreSum item topics := by
    unfold keywordScoreSum
    apply List.sum_nonneg
    intro x hx
    obtain ⟨t, _, rfl⟩ := List.mem_map.mp hx
    exact topicContribution_nonneg _ _
  have h2 : 2 ∣ keywordScoreSum item topics := by
    unfold keywordScoreSum
    apply List.dvd_sum
    intro x hx
    obtain ⟨t, _, rfl⟩ := List.mem_map.mp hx
    exact topicContribution_even _ _
  exact ⟨h0, h2, by omega⟩

/-- C10: every record returned by `curateItems` consists of the unchanged
original fields of some input item together with that item's relevance
score as the only added field. -/
theorem claim10_curateItems_preserves_fields :
    ∀ (items : List FeedItem) (topics : List Str) (minScore : Int)
      (s : ScoredItem), s ∈ curateItems items topics minScore →
      ∃ i, i ∈ items
        ∧ s.title = i.title ∧ s.link = i.link ∧ s.pubDate = i.pubDate
        ∧ s.creator = i.creator ∧ s.description = i.description
        ∧ s.content = i.content ∧ s.feedSource = i.feedSource
        ∧ s.relevanceScore = calculateRelevanceScore i topics := by
  intro items topics m s hs
  unfold curateItems at hs
  rw [List.mem_mergeSort] at hs
  have h1 := (List.mem_filter.mp hs).1
  obtain ⟨i, hi, rfl⟩ := List.mem_map.mp h1
  exact ⟨i, hi, rfl, rfl, rfl, rfl, rfl, rfl, rfl, rfl⟩

/-- C10 (witness): instantiated on a concrete curated record. -/
theorem claim10_witness :
    ∃ i, i ∈ [itemR1]
      ∧ (scoreItem topicsRust itemR1).title = i.title
      ∧ (scoreItem topicsRust itemR1).link = i.link
      ∧ (scoreItem topicsRust itemR1).pubDate = i.pubDate
      ∧ (scoreItem topicsRust itemR1).creator = i.creator
      ∧ (scoreItem topicsRust itemR1).description = i.description
      ∧ (scoreItem topicsRust itemR1).content = i.content
      ∧ (scoreItem topicsRust itemR1).feedSource = i.feedSource
      ∧ (scoreItem topicsRust itemR1).relevanceScore
          = calculateRelevanceScore i topicsRust :=
  claim10_curateItems_preserves_fields [itemR1] topicsRust 1
    (scoreItem topicsRust itemR1) (by
      have h : curateItems [itemR1] topicsRust 1
          = ([itemR1].map (scoreItem topicsRust)).filter (scoreAtLeast 1) :=
        List.mergeSort_of_sorted (by decide)
      rw [h]
      decide)

end WellRead
